import Mathlib

/-!
Shallow embedding of `src/app.py`, a Streamlit RAG application:
upload documents, build a vector index via an external provider
(LlamaIndex / OpenAI), and answer queries with source citations.

The app's own code is pure orchestration; the external collaborators
(the embedding/indexing provider, the LLM, the directory reader's
decoding) are modelled as black-box parameters (`Provider`, `Loader`).
Observable behaviour (UI messages, temp-dir lifecycle, provider calls)
is recorded in an event trace.
-/

/-- An uploaded file: a name and a byte payload (`uploaded_file.name`,
`uploaded_file.getbuffer()` in `app.py`). -/
structure UploadedFile where
  name : String
  content : List Nat
deriving DecidableEq, Repr

/-- A normalized text record produced by the document loader. -/
structure DocumentRecord where
  text : String
  source : String
deriving DecidableEq, Repr

/-- The opaque index returned by `VectorStoreIndex.from_documents`;
we track the batch of documents it was built from. -/
structure IndexHandle where
  docs : List DocumentRecord
deriving DecidableEq, Repr

/-- LLM configuration, from `OpenAI(temperature=0, model="gpt-3.5-turbo")`
at `app.py:73`. -/
structure LLMConfig where
  temperature : Nat
  model : String
deriving DecidableEq, Repr

/-- A retrieved source node: similarity score and chunk text. -/
structure SourceNode where
  score : ℚ
  text : String
deriving DecidableEq, Repr

/-- The query engine built at `app.py:75-81`: a retriever over one index
(`similarity_top_k=4`) and a `SimilarityPostprocessor`
(`similarity_cutoff=0.75`). `llm` is the per-engine LLM configuration:
it is `none` for the engines this app builds, because the
`RetrieverQueryEngine(...)` call at `app.py:78-81` passes only the
retriever and the postprocessor — the `OpenAI` object constructed at
`app.py:73` is never handed to it, so the engine falls back to the
library's ambient default LLM. -/
structure QueryEngineHandle where
  index : IndexHandle
  similarity_top_k : Nat
  similarity_cutoff : ℚ
  llm : Option LLMConfig
deriving DecidableEq, Repr

/-- The result of one query: answer text and source nodes. -/
structure Response where
  text : String
  source_nodes : List SourceNode
deriving DecidableEq, Repr

/-- Observable events of one interaction run: temp-dir lifecycle,
file staging, reader invocation, provider calls, and rendered UI output. -/
inductive Event where
  | acquireTempDir
  | stageFile (name : String)
  | readerLoad
  | releaseTempDir
  | providerBuildIndex (docs : List DocumentRecord)
  | llmQuery (q : String)
  | errorMsg (msg : String)
  | infoMsg (msg : String)
  | successMsg (msg : String)
  | showAnswer (text : String)
  | showSource (score : ℚ) (text : String)
  | widgetReject (name : String)
deriving DecidableEq, Repr

/-- The external collaborators, treated as black boxes:
`embedFail docs` is `some e` when `VectorStoreIndex.from_documents` raises,
`engineFail idx` is `some e` when query-engine construction raises,
`similarity` is the provider-internal similarity metric, and
`generate` is the LLM completion call (which may fail). -/
structure Provider where
  embedFail : List DocumentRecord → Option String
  engineFail : IndexHandle → Option String
  similarity : String → String → ℚ
  generate : String → List String → Except String String

/-- The black-box decoding behaviour of `SimpleDirectoryReader.load_data`:
given the staged files, it either yields document records or raises. -/
structure Loader where
  decode : List UploadedFile → Except String (List DocumentRecord)

/-- Extensions accepted by the upload widget (`app.py:107`). -/
def allowedExtensions : List String := ["txt", "pdf", "docx", "md"]

/-- The characters after the last dot of a name, `none` when it has no dot. -/
def extAux : List Char → Option (List Char)
  | [] => none
  | c :: cs =>
    match extAux cs with
    | some e => some e
    | none => if c = '.' then some cs else none

/-- The extension of a file name: the part after the last dot,
empty when the name has no dot. -/
def fileExtension (name : String) : String :=
  match extAux name.toList with
  | some e => String.mk e
  | none => ""

/-- Whether a file has one of the recognized extensions. -/
def allowedFile (f : UploadedFile) : Bool :=
  allowedExtensions.contains (fileExtension f.name)

/-- Models the `st.file_uploader(..., type=['txt','pdf','docx','md'])`
widget call at `app.py:104-108`. The type filter lives in the Streamlit
widget, outside this repository: per the spec, files outside the allowed
set are rejected by the widget with a user-visible notice and never reach
the application code; only the accepted files appear in `uploaded_files`. -/
def file_uploader (selected : List UploadedFile) :
    List UploadedFile × List Event :=
  (selected.filter allowedFile,
   (selected.filter (fun f => !allowedFile f)).map
     (fun f => Event.widgetReject f.name))

/-- `load_documents_from_files` (`app.py:25-43`): stage every given file
into a fresh temporary directory, hand the whole directory to
`SimpleDirectoryReader`, and release the directory on every exit path
(the `with tempfile.TemporaryDirectory()` block releases it both on
normal return and while a decode exception propagates). -/
def load_documents_from_files (ld : Loader) (uploaded_files : List UploadedFile) :
    Except String (List DocumentRecord) × List Event :=
  (ld.decode uploaded_files,
   Event.acquireTempDir ::
     (uploaded_files.map (fun f => Event.stageFile f.name) ++
      [Event.readerLoad, Event.releaseTempDir]))

/-- `create_index` (`app.py:45-61`): an empty document list is reported
with `st.error("No documents to index!")` and yields `None` without
calling the provider; otherwise `VectorStoreIndex.from_documents` is
invoked, and a provider exception is caught, reported and yields `None`. -/
def create_index (p : Provider) (documents : List DocumentRecord) :
    Option IndexHandle × List Event :=
  if documents.isEmpty then
    (none, [Event.errorMsg "No documents to index!"])
  else
    match p.embedFail documents with
    | some e =>
        (none, [Event.providerBuildIndex documents,
                Event.errorMsg ("Error creating index: " ++ e)])
    | none => (some ⟨documents⟩, [Event.providerBuildIndex documents])

/-- The LLM configuration constructed at `app.py:73`
(`OpenAI(temperature=0, model="gpt-3.5-turbo")`). The source builds this
object and then never uses it: it is not passed to the
`RetrieverQueryEngine` at `app.py:78-81`. -/
def constructedLLM : LLMConfig := { temperature := 0, model := "gpt-3.5-turbo" }

/-- `create_query_engine` (`app.py:63-88`): a `None` index is reported and
yields `None`; otherwise the engine is assembled from the retriever
(`similarity_top_k=4`) and the postprocessor (`similarity_cutoff=0.75`),
with any construction exception caught, reported and yielding `None`.
The `OpenAI` object of `constructedLLM` is created inside the `try` block
but not wired into the engine, so the handle carries no per-engine LLM
(`llm := none`). -/
def create_query_engine (p : Provider) (index : Option IndexHandle) :
    Option QueryEngineHandle × List Event :=
  match index with
  | none => (none, [Event.errorMsg "Cannot create query engine. Index is None."])
  | some idx =>
    match p.engineFail idx with
    | some e => (none, [Event.errorMsg ("Error creating query engine: " ++ e)])
    | none =>
        (some { index := idx, similarity_top_k := 4, similarity_cutoff := 3/4,
                llm := none }, [])

/-- Insert a node into a list sorted by descending score. -/
def insertByScore (x : SourceNode) : List SourceNode → List SourceNode
  | [] => [x]
  | y :: ys => if y.score ≤ x.score then x :: y :: ys else y :: insertByScore x ys

/-- Sort nodes by descending similarity score. -/
def sortByScoreDesc (l : List SourceNode) : List SourceNode :=
  l.foldr insertByScore []

/-- The `VectorIndexRetriever` configured at `app.py:75`: score every chunk
of the engine's own index against the query, rank by descending similarity,
keep the top `similarity_top_k`. Retrieval internals are provider-side;
this follows the spec's description of the black box, bound to the one
index the retriever was constructed with. -/
def retrieve (p : Provider) (qe : QueryEngineHandle) (q : String) : List SourceNode :=
  (sortByScoreDesc (qe.index.docs.map
      (fun d => SourceNode.mk (p.similarity q d.text) d.text))).take qe.similarity_top_k

/-- The `SimilarityPostprocessor` configured at `app.py:76`: drop retrieved
nodes whose score is below the cutoff. -/
def postprocess (qe : QueryEngineHandle) (nodes : List SourceNode) : List SourceNode :=
  nodes.filter (fun n => qe.similarity_cutoff ≤ n.score)

/-- `query_engine.query(query)` (`app.py:157`): retrieve, post-filter, then
synthesize an answer via the LLM; all-or-nothing on provider failure. -/
def engineQuery (p : Provider) (qe : QueryEngineHandle) (q : String) :
    Except String Response × List Event :=
  match p.generate q ((postprocess qe (retrieve p qe q)).map (fun n => n.text)) with
  | .error e => (.error e, [Event.llmQuery q])
  | .ok text => (.ok ⟨text, postprocess qe (retrieve p qe q)⟩, [Event.llmQuery q])

/-- The per-session state: `st.session_state.query_engine`, absent until
the first successful processing run (`app.py:144`). -/
structure SessionState where
  query_engine : Option QueryEngineHandle
deriving DecidableEq, Repr

/-- The user inputs of one interaction run: API key text, the files the
user selected in the upload widget, the process-button flag, and the
query text (`app.py:101-114`). -/
structure RunInputs where
  api_key : String
  selected_files : List UploadedFile
  process_button : Bool
  query : String
deriving Repr

/-- The query block at `app.py:153-173`: runs only when the query string
is non-empty and a query engine is stored; renders the answer and the
source nodes (or an info message when there are none); a query failure
is caught and rendered as an error. -/
def renderQuery (p : Provider) (s : SessionState) (query : String) : List Event :=
  if query = "" then []
  else
    match s.query_engine with
    | none => []
    | some qe =>
      match engineQuery p qe query with
      | (.error e, ev) => ev ++ [Event.errorMsg ("Error processing query: " ++ e)]
      | (.ok resp, ev) =>
          ev ++ [Event.showAnswer resp.text] ++
            (if resp.source_nodes.isEmpty then [Event.infoMsg "No source nodes found."]
             else resp.source_nodes.map (fun n => Event.showSource n.score n.text))

/-- The processing block at `app.py:122-150`: load, build index, build
query engine, store the engine in session state. The returned flag is
true when `main` executed one of its early `return` statements
(`app.py:134` and `app.py:141`), which skip the query block; a loader
exception is caught by the outer handler (`app.py:149`) and execution
falls through to the query block. -/
def processBlock (ld : Loader) (p : Provider) (s : SessionState)
    (files : List UploadedFile) : SessionState × List Event × Bool :=
  match load_documents_from_files ld files with
  | (.error e, ltr) =>
      (s, ltr ++ [Event.errorMsg ("Error processing documents: " ++ e)], false)
  | (.ok documents, ltr) =>
    match create_index p documents with
    | (none, itr) =>
        (s, ltr ++ itr ++ [Event.errorMsg "Failed to create index."], true)
    | (some idx, itr) =>
      match create_query_engine p (some idx) with
      | (none, qtr) =>
          (s, ltr ++ itr ++ qtr ++ [Event.errorMsg "Failed to create query engine."], true)
      | (some qe, qtr) =>
          (⟨some qe⟩,
           ltr ++ itr ++ qtr ++
             [Event.successMsg ("Processed " ++ toString documents.length ++
               " documents successfully!")],
           false)

/-- One run of `main` (`app.py:90-175`): the upload widget filters the
selected files; with no API key only the credential prompt is rendered;
otherwise the processing block runs when files are present and the button
was pressed (its early returns skip the query block), and then the query
block runs against the stored session state. -/
def mainRun (ld : Loader) (p : Provider) (s0 : SessionState) (inp : RunInputs) :
    SessionState × List Event :=
  let w := file_uploader inp.selected_files
  if inp.api_key = "" then
    (s0, w.2 ++ [Event.infoMsg "Please enter your OpenAI API Key to proceed."])
  else
    if !w.1.isEmpty && inp.process_button then
      match processBlock ld p s0 w.1 with
      | (s1, pev, true) => (s1, w.2 ++ pev)
      | (s1, pev, false) => (s1, w.2 ++ pev ++ renderQuery p s1 inp.query)
    else
      (s0, w.2 ++ renderQuery p s0 inp.query)

/-- A concrete provider for witnesses: building and engine construction
succeed, every chunk scores 9/10, generation returns "answer". -/
def demoProvider : Provider where
  embedFail := fun _ => none
  engineFail := fun _ => none
  similarity := fun _ _ => 9/10
  generate := fun _ _ => .ok "answer"

/-- A concrete loader for witnesses: decodes each staged file into one
record carrying its name. -/
def demoLoader : Loader where
  decode := fun fs => .ok (fs.map (fun f => ⟨f.name, f.name⟩))

/-! ## Helper lemmas -/

theorem mem_insertByScore {x a : SourceNode} {l : List SourceNode}
    (h : x ∈ insertByScore a l) : x = a ∨ x ∈ l := by
  induction l with
  | nil => simpa [insertByScore] using h
  | cons y ys ih =>
    simp only [insertByScore] at h
    split at h
    · simpa using h
    · rcases List.mem_cons.mp h with h1 | h1
      · exact Or.inr (by simp [h1])
      · rcases ih h1 with h2 | h2
        · exact Or.inl h2
        · exact Or.inr (by simp [h2])

theorem mem_sortByScoreDesc {x : SourceNode} {l : List SourceNode}
    (h : x ∈ sortByScoreDesc l) : x ∈ l := by
  induction l with
  | nil => simpa [sortByScoreDesc] using h
  | cons y ys ih =>
    simp only [sortByScoreDesc, List.foldr] at h
    rcases mem_insertByScore h with h1 | h1
    · simp [h1]
    · exact List.mem_cons_of_mem _ (ih h1)

theorem retrieve_text_mem {p : Provider} {qe : QueryEngineHandle} {q : String}
    {n : SourceNode} (h : n ∈ retrieve p qe q) :
    ∃ d ∈ qe.index.docs, d.text = n.text := by
  have h1 : n ∈ sortByScoreDesc (qe.index.docs.map
      (fun d => SourceNode.mk (p.similarity q d.text) d.text)) :=
    List.mem_of_mem_take h
  have h2 := mem_sortByScoreDesc h1
  rcases List.mem_map.mp h2 with ⟨d, hd, he⟩
  exact ⟨d, hd, by simp [← he]⟩

theorem renderQuery_showSource {p : Provider} {s : SessionState} {q : String}
    {sc : ℚ} {t : String}
    (h : Event.showSource sc t ∈ renderQuery p s q) :
    ∃ qe, s.query_engine = some qe ∧ ∃ d ∈ qe.index.docs, d.text = t := by
  unfold renderQuery at h
  split at h
  · simp at h
  · match hqe : s.query_engine with
    | none => rw [hqe] at h; simp at h
    | some qe =>
      rw [hqe] at h
      refine ⟨qe, rfl, ?_⟩
      simp only [engineQuery] at h
      cases hg : p.generate q ((postprocess qe (retrieve p qe q)).map
          (fun n => n.text)) with
      | error e => rw [hg] at h; simp at h
      | ok text =>
        rw [hg] at h
        simp only [List.mem_append, List.mem_cons, List.mem_singleton] at h
        rcases h with (h | h) | h
        · simp at h
        · simp at h
        · split at h
          · simp at h
          · rcases List.mem_map.mp h with ⟨nd, hnd, he⟩
            have hret : nd ∈ retrieve p qe q :=
              List.mem_of_mem_filter hnd
            rcases retrieve_text_mem hret with ⟨d, hd, hdt⟩
            refine ⟨d, hd, ?_⟩
            rw [hdt, (Event.showSource.inj he).2]

/-! ## Claim theorems -/

/-- C2 (code bug): the engine produced from a concrete non-null index
carries the fixed retrieval parameters (top-k 4, cutoff 0.75) but no LLM
configuration at all: the temperature-0 "gpt-3.5-turbo" object constructed
at `app.py:73` is never passed to the `RetrieverQueryEngine` built at
`app.py:78-81`, so the engine is not configured with it. -/
theorem create_query_engine_llm_not_wired :
    ∃ qe, (create_query_engine demoProvider
        (some ⟨[⟨"a.txt", "a.txt"⟩]⟩)).1 = some qe ∧
      qe.similarity_top_k = 4 ∧ qe.similarity_cutoff = 3/4 ∧
      qe.llm = none ∧ qe.llm ≠ some constructedLLM := by
  refine ⟨_, rfl, rfl, rfl, rfl, by simp⟩

/-- C3: on an empty document list `create_index` reports the empty-corpus
error and returns no index, and the external indexing provider is never
invoked on that path. -/
theorem create_index_empty_corpus (p : Provider) :
    create_index p [] = (none, [Event.errorMsg "No documents to index!"]) ∧
    ∀ d, Event.providerBuildIndex d ∉ (create_index p []).2 := by
  refine ⟨rfl, ?_⟩
  intro d hmem
  simp [create_index] at hmem

/-- C6: `create_query_engine` applied to an absent (`None`) index reports
an error and returns no handle instead of constructing one. -/
theorem create_query_engine_null_index (p : Provider) :
    create_query_engine p none =
      (none, [Event.errorMsg "Cannot create query engine. Index is None."]) := rfl

/-- C10: the document loader performs no extension validation of its own:
it stages every file it is given regardless of extension, hands the whole
staged directory to the reader (its outcome is exactly the reader's decode
outcome on the full file list), and never surfaces an error message of its
own — the unsupported-format boundary lives only in the upload widget. -/
theorem loader_no_extension_validation (ld : Loader) (files : List UploadedFile) :
    (load_documents_from_files ld files).1 = ld.decode files ∧
    (∀ f ∈ files, Event.stageFile f.name ∈ (load_documents_from_files ld files).2) ∧
    Event.readerLoad ∈ (load_documents_from_files ld files).2 ∧
    ∀ msg, Event.errorMsg msg ∉ (load_documents_from_files ld files).2 := by
  refine ⟨rfl, ?_, ?_, ?_⟩
  · intro f hf
    simp only [load_documents_from_files, List.mem_cons, List.mem_append,
      List.mem_map]
    exact Or.inr (Or.inl ⟨f, hf, rfl⟩)
  · simp [load_documents_from_files]
  · intro msg hmem
    simp [load_documents_from_files] at hmem

theorem file_uploader_events {sel : List UploadedFile} {e : Event}
    (h : e ∈ (file_uploader sel).2) : ∃ n, e = Event.widgetReject n := by
  simp only [file_uploader, List.mem_map] at h
  rcases h with ⟨f, _, he⟩
  exact ⟨f.name, he.symm⟩

theorem renderQuery_none {p : Provider} {s : SessionState} {q : String}
    (h : s.query_engine = none) : renderQuery p s q = [] := by
  unfold renderQuery
  split
  · rfl
  · simp [h]

/-- C9: with no API key supplied, one interaction run leaves the session
state untouched and renders nothing but the credential prompt (plus
widget-level rejection notices): no staging, no loading, no index build
and no query ever happens. -/
theorem missing_credential_blocks_all (ld : Loader) (p : Provider)
    (s0 : SessionState) (inp : RunInputs) (hkey : inp.api_key = "") :
    (mainRun ld p s0 inp).1 = s0 ∧
    Event.infoMsg "Please enter your OpenAI API Key to proceed." ∈
      (mainRun ld p s0 inp).2 ∧
    ∀ e ∈ (mainRun ld p s0 inp).2,
      e = Event.infoMsg "Please enter your OpenAI API Key to proceed." ∨
      ∃ n, e = Event.widgetReject n := by
  have hm : mainRun ld p s0 inp =
      (s0, (file_uploader inp.selected_files).2 ++
        [Event.infoMsg "Please enter your OpenAI API Key to proceed."]) := by
    simp [mainRun, hkey]
  rw [hm]
  refine ⟨rfl, by simp, ?_⟩
  intro e he
  simp only [List.mem_append, List.mem_singleton] at he
  rcases he with he | he
  · exact Or.inr (file_uploader_events he)
  · exact Or.inl he

/-- Witness for C9: a run with an empty API key, one selected file, the
process button pressed and a query typed still changes nothing. -/
theorem missing_credential_blocks_all_witness :
    (mainRun demoLoader demoProvider ⟨none⟩
        ⟨"", [⟨"a.txt", [1]⟩], true, "hi"⟩).1 = ⟨none⟩ ∧
    Event.infoMsg "Please enter your OpenAI API Key to proceed." ∈
      (mainRun demoLoader demoProvider ⟨none⟩
        ⟨"", [⟨"a.txt", [1]⟩], true, "hi"⟩).2 ∧
    ∀ e ∈ (mainRun demoLoader demoProvider ⟨none⟩
        ⟨"", [⟨"a.txt", [1]⟩], true, "hi"⟩).2,
      e = Event.infoMsg "Please enter your OpenAI API Key to proceed." ∨
      ∃ n, e = Event.widgetReject n :=
  missing_credential_blocks_all demoLoader demoProvider ⟨none⟩
    ⟨"", [⟨"a.txt", [1]⟩], true, "hi"⟩ rfl

/-- C8: a query submitted while no query engine is stored in session state
(and no processing is triggered in the same run) leaves the state in its
pre-Indexed form and performs no provider call: the answer operation is
never invoked and no index build happens. -/
theorem query_without_engine_no_provider_call (ld : Loader) (p : Provider)
    (s0 : SessionState) (inp : RunInputs)
    (heng : s0.query_engine = none)
    (hnoproc : (file_uploader inp.selected_files).1 = [] ∨
      inp.process_button = false) :
    (mainRun ld p s0 inp).1 = s0 ∧
    (∀ q, Event.llmQuery q ∉ (mainRun ld p s0 inp).2) ∧
    (∀ d, Event.providerBuildIndex d ∉ (mainRun ld p s0 inp).2) := by
  have hcond : ((!(file_uploader inp.selected_files).1.isEmpty) &&
      inp.process_button) = false := by
    rcases hnoproc with h | h
    · simp [h]
    · simp [h]
  by_cases hk : inp.api_key = ""
  · have hm : mainRun ld p s0 inp =
        (s0, (file_uploader inp.selected_files).2 ++
          [Event.infoMsg "Please enter your OpenAI API Key to proceed."]) := by
      simp [mainRun, hk]
    rw [hm]
    refine ⟨rfl, ?_, ?_⟩
    · intro q hq
      simp only [List.mem_append, List.mem_singleton] at hq
      rcases hq with hq | hq
      · rcases file_uploader_events hq with ⟨n, hn⟩
        exact Event.noConfusion hn
      · exact Event.noConfusion hq
    · intro d hd
      simp only [List.mem_append, List.mem_singleton] at hd
      rcases hd with hd | hd
      · rcases file_uploader_events hd with ⟨n, hn⟩
        exact Event.noConfusion hn
      · exact Event.noConfusion hd
  · have hm : mainRun ld p s0 inp =
        (s0, (file_uploader inp.selected_files).2 ++
          renderQuery p s0 inp.query) := by
      simp [mainRun, hk, hcond]
    rw [hm, renderQuery_none heng]
    refine ⟨rfl, ?_, ?_⟩
    · intro q hq
      simp only [List.append_nil] at hq
      rcases file_uploader_events hq with ⟨n, hn⟩
      exact Event.noConfusion hn
    · intro d hd
      simp only [List.append_nil] at hd
      rcases file_uploader_events hd with ⟨n, hn⟩
      exact Event.noConfusion hn

/-- Witness for C8: with an API key and a query but no stored engine and
the process button not pressed, nothing is called and the state stays
engine-less. -/
theorem query_without_engine_no_provider_call_witness :
    (mainRun demoLoader demoProvider ⟨none⟩
        ⟨"k", [⟨"a.txt", [1]⟩], false, "what"⟩).1 = ⟨none⟩ ∧
    (∀ q, Event.llmQuery q ∉ (mainRun demoLoader demoProvider ⟨none⟩
        ⟨"k", [⟨"a.txt", [1]⟩], false, "what"⟩).2) ∧
    (∀ d, Event.providerBuildIndex d ∉ (mainRun demoLoader demoProvider ⟨none⟩
        ⟨"k", [⟨"a.txt", [1]⟩], false, "what"⟩).2) :=
  query_without_engine_no_provider_call demoLoader demoProvider ⟨none⟩
    ⟨"k", [⟨"a.txt", [1]⟩], false, "what"⟩ rfl (Or.inr rfl)

theorem load_trace_events {ld : Loader} {fs : List UploadedFile} {e : Event}
    (h : e ∈ (load_documents_from_files ld fs).2) :
    e = Event.acquireTempDir ∨ (∃ n, e = Event.stageFile n) ∨
      e = Event.readerLoad ∨ e = Event.releaseTempDir := by
  simp only [load_documents_from_files, List.mem_cons, List.mem_append,
    List.mem_map, List.mem_singleton, List.not_mem_nil, or_false] at h
  rcases h with h | ⟨f, _, hf⟩ | h | h
  · exact Or.inl h
  · exact Or.inr (Or.inl ⟨f.name, hf.symm⟩)
  · exact Or.inr (Or.inr (Or.inl h))
  · exact Or.inr (Or.inr (Or.inr h))

theorem create_index_trace_events {p : Provider} {docs : List DocumentRecord}
    {e : Event} (h : e ∈ (create_index p docs).2) :
    (∃ d, e = Event.providerBuildIndex d) ∨ ∃ m, e = Event.errorMsg m := by
  by_cases hd : docs.isEmpty
  · simp only [create_index, if_pos hd, List.mem_singleton] at h
    exact Or.inr ⟨_, h⟩
  · cases hf : p.embedFail docs with
    | some er =>
      simp only [create_index, if_neg hd, hf, List.mem_cons,
        List.mem_singleton, List.not_mem_nil, or_false] at h
      rcases h with h | h
      · exact Or.inl ⟨_, h⟩
      · exact Or.inr ⟨_, h⟩
    | none =>
      simp only [create_index, if_neg hd, hf, List.mem_singleton] at h
      exact Or.inl ⟨_, h⟩

theorem create_query_engine_trace_events {p : Provider} {idx : Option IndexHandle}
    {e : Event} (h : e ∈ (create_query_engine p idx).2) :
    ∃ m, e = Event.errorMsg m := by
  match idx with
  | none =>
    simp only [create_query_engine, List.mem_singleton] at h
    exact ⟨_, h⟩
  | some i =>
    cases hf : p.engineFail i with
    | some er =>
      simp only [create_query_engine, hf, List.mem_singleton] at h
      exact ⟨_, h⟩
    | none =>
      simp only [create_query_engine, hf] at h
      exact absurd h (List.not_mem_nil e)

theorem processBlock_trace_events {ld : Loader} {p : Provider} {s : SessionState}
    {fs : List UploadedFile} {e : Event}
    (h : e ∈ (processBlock ld p s fs).2.1) :
    e = Event.acquireTempDir ∨ (∃ n, e = Event.stageFile n) ∨
      e = Event.readerLoad ∨ e = Event.releaseTempDir ∨
      (∃ d, e = Event.providerBuildIndex d) ∨
      (∃ m, e = Event.errorMsg m) ∨ (∃ m, e = Event.successMsg m) := by
  have hload : (load_documents_from_files ld fs).2 =
      Event.acquireTempDir :: (fs.map (fun f => Event.stageFile f.name) ++
        [Event.readerLoad, Event.releaseTempDir]) := rfl
  cases hdec : ld.decode fs with
  | error er =>
    simp only [processBlock, load_documents_from_files, hdec,
      List.mem_append, List.mem_singleton] at h
    rcases h with h | h
    · exact (load_trace_events (hload ▸ h)).imp id (Or.imp id (Or.imp id Or.inl))
    · exact Or.inr (Or.inr (Or.inr (Or.inr (Or.inr (Or.inl ⟨_, h⟩)))))
  | ok documents =>
    cases hci : create_index p documents with
    | mk oi itr =>
      cases oi with
      | none =>
        simp only [processBlock, load_documents_from_files, hdec, hci,
          List.mem_append, List.mem_singleton] at h
        rcases h with (h | h) | h
        · exact (load_trace_events (hload ▸ h)).imp id (Or.imp id (Or.imp id Or.inl))
        · have : e ∈ (create_index p documents).2 := by rw [hci]; exact h
          rcases create_index_trace_events this with h1 | h1
          · exact Or.inr (Or.inr (Or.inr (Or.inr (Or.inl h1))))
          · exact Or.inr (Or.inr (Or.inr (Or.inr (Or.inr (Or.inl h1)))))
        · exact Or.inr (Or.inr (Or.inr (Or.inr (Or.inr (Or.inl ⟨_, h⟩)))))
      | some idx =>
        cases hcq : create_query_engine p (some idx) with
        | mk oq qtr =>
          cases oq with
          | none =>
            simp only [processBlock, load_documents_from_files, hdec, hci, hcq,
              List.mem_append, List.mem_singleton] at h
            rcases h with ((h | h) | h) | h
            · exact (load_trace_events (hload ▸ h)).imp id
                (Or.imp id (Or.imp id Or.inl))
            · have : e ∈ (create_index p documents).2 := by rw [hci]; exact h
              rcases create_index_trace_events this with h1 | h1
              · exact Or.inr (Or.inr (Or.inr (Or.inr (Or.inl h1))))
              · exact Or.inr (Or.inr (Or.inr (Or.inr (Or.inr (Or.inl h1)))))
            · have : e ∈ (create_query_engine p (some idx)).2 := by rw [hcq]; exact h
              exact Or.inr (Or.inr (Or.inr (Or.inr (Or.inr
                (Or.inl (create_query_engine_trace_events this))))))
            · exact Or.inr (Or.inr (Or.inr (Or.inr (Or.inr (Or.inl ⟨_, h⟩)))))
          | some qe =>
            simp only [processBlock, load_documents_from_files, hdec, hci, hcq,
              List.mem_append, List.mem_singleton] at h
            rcases h with ((h | h) | h) | h
            · exact (load_trace_events (hload ▸ h)).imp id
                (Or.imp id (Or.imp id Or.inl))
            · have : e ∈ (create_index p documents).2 := by rw [hci]; exact h
              rcases create_index_trace_events this with h1 | h1
              · exact Or.inr (Or.inr (Or.inr (Or.inr (Or.inl h1))))
              · exact Or.inr (Or.inr (Or.inr (Or.inr (Or.inr (Or.inl h1)))))
            · have : e ∈ (create_query_engine p (some idx)).2 := by rw [hcq]; exact h
              exact Or.inr (Or.inr (Or.inr (Or.inr (Or.inr
                (Or.inl (create_query_engine_trace_events this))))))
            · exact Or.inr (Or.inr (Or.inr (Or.inr (Or.inr (Or.inr ⟨_, h⟩)))))

theorem process_condition_true {sel : List UploadedFile} {b : Bool}
    (hfiles : (file_uploader sel).1 ≠ []) (hb : b = true) :
    ((!(file_uploader sel).1.isEmpty) && b) = true := by
  subst hb
  cases hE : (file_uploader sel).1 with
  | nil => exact absurd hE hfiles
  | cons a l => simp [hE]

theorem mainRun_processing_early (ld : Loader) (p : Provider)
    (s0 : SessionState) (inp : RunInputs)
    (hkey : inp.api_key ≠ "")
    (hcond : ((!(file_uploader inp.selected_files).1.isEmpty) &&
      inp.process_button) = true)
    (hflag : (processBlock ld p s0 (file_uploader inp.selected_files).1).2.2
      = true) :
    mainRun ld p s0 inp =
      ((processBlock ld p s0 (file_uploader inp.selected_files).1).1,
       (file_uploader inp.selected_files).2 ++
         (processBlock ld p s0 (file_uploader inp.selected_files).1).2.1) := by
  rcases hP : processBlock ld p s0 (file_uploader inp.selected_files).1 with
    ⟨s1, pev, flag⟩
  rw [hP] at hflag
  simp only at hflag
  subst hflag
  simp only [mainRun, if_neg hkey, hcond, if_true, hP]

theorem mainRun_processing_full (ld : Loader) (p : Provider)
    (s0 : SessionState) (inp : RunInputs)
    (hkey : inp.api_key ≠ "")
    (hcond : ((!(file_uploader inp.selected_files).1.isEmpty) &&
      inp.process_button) = true)
    (hflag : (processBlock ld p s0 (file_uploader inp.selected_files).1).2.2
      = false) :
    mainRun ld p s0 inp =
      ((processBlock ld p s0 (file_uploader inp.selected_files).1).1,
       (file_uploader inp.selected_files).2 ++
         (processBlock ld p s0 (file_uploader inp.selected_files).1).2.1 ++
         renderQuery p
           (processBlock ld p s0 (file_uploader inp.selected_files).1).1
           inp.query) := by
  rcases hP : processBlock ld p s0 (file_uploader inp.selected_files).1 with
    ⟨s1, pev, flag⟩
  rw [hP] at hflag
  simp only at hflag
  subst hflag
  simp only [mainRun, if_neg hkey, hcond, if_true, hP]

/-- C5: when index creation or query-engine creation fails during a
processing run, the session state (in particular the stored query engine)
is left exactly as before the attempt, and the run renders no answer and
no source nodes. -/
theorem failed_build_preserves_state (ld : Loader) (p : Provider)
    (s0 : SessionState) (inp : RunInputs) (docs : List DocumentRecord)
    (hkey : inp.api_key ≠ "")
    (hbtn : inp.process_button = true)
    (hfiles : (file_uploader inp.selected_files).1 ≠ [])
    (hload : ld.decode (file_uploader inp.selected_files).1 =
      Except.ok docs)
    (hfail : (create_query_engine p (create_index p docs).1).1 = none) :
    (mainRun ld p s0 inp).1 = s0 ∧
    (∀ t, Event.showAnswer t ∉ (mainRun ld p s0 inp).2) ∧
    (∀ sc t, Event.showSource sc t ∉ (mainRun ld p s0 inp).2) := by
  have hcond := process_condition_true hfiles hbtn
  have hpb : (processBlock ld p s0 (file_uploader inp.selected_files).1).1 = s0 ∧
      (processBlock ld p s0 (file_uploader inp.selected_files).1).2.2 = true := by
    cases hci : create_index p docs with
    | mk oi itr =>
      cases oi with
      | none =>
        constructor <;>
          simp only [processBlock, load_documents_from_files, hload, hci]
      | some idx =>
        rw [hci] at hfail
        cases hcq : create_query_engine p (some idx) with
        | mk oq qtr =>
          cases oq with
          | none =>
            constructor <;>
              simp only [processBlock, load_documents_from_files, hload,
                hci, hcq]
          | some qe =>
            rw [hcq] at hfail
            exact absurd hfail (by simp)
  have hm := mainRun_processing_early ld p s0 inp hkey hcond hpb.2
  rw [hm]
  refine ⟨hpb.1, ?_, ?_⟩
  · intro t ht
    simp only [List.mem_append] at ht
    rcases ht with ht | ht
    · rcases file_uploader_events ht with ⟨n, hn⟩
      exact Event.noConfusion hn
    · rcases processBlock_trace_events ht with h | ⟨n, h⟩ | h | h |
        ⟨d, h⟩ | ⟨m, h⟩ | ⟨m, h⟩ <;> exact Event.noConfusion h
  · intro sc t ht
    simp only [List.mem_append] at ht
    rcases ht with ht | ht
    · rcases file_uploader_events ht with ⟨n, hn⟩
      exact Event.noConfusion hn
    · rcases processBlock_trace_events ht with h | ⟨n, h⟩ | h | h |
        ⟨d, h⟩ | ⟨m, h⟩ | ⟨m, h⟩ <;> exact Event.noConfusion h

/-- A provider whose index build always fails, for the C5 witness. -/
def failingBuildProvider : Provider where
  embedFail := fun _ => some "rate limit"
  engineFail := fun _ => none
  similarity := fun _ _ => 9/10
  generate := fun _ _ => .ok "answer"

/-- Witness for C5: a run whose index build fails (provider error) leaves
a previously stored engine untouched and renders no answer or sources. -/
theorem failed_build_preserves_state_witness :
    (mainRun demoLoader failingBuildProvider
        ⟨some { index := ⟨[⟨"old", "old"⟩]⟩, similarity_top_k := 4,
                similarity_cutoff := 3/4,
                llm := none }⟩
        ⟨"k", [⟨"a.txt", [1]⟩], true, "q"⟩).1 =
      ⟨some { index := ⟨[⟨"old", "old"⟩]⟩, similarity_top_k := 4,
              similarity_cutoff := 3/4,
              llm := none }⟩ ∧
    (∀ t, Event.showAnswer t ∉ (mainRun demoLoader failingBuildProvider
        ⟨some { index := ⟨[⟨"old", "old"⟩]⟩, similarity_top_k := 4,
                similarity_cutoff := 3/4,
                llm := none }⟩
        ⟨"k", [⟨"a.txt", [1]⟩], true, "q"⟩).2) ∧
    (∀ sc t, Event.showSource sc t ∉ (mainRun demoLoader failingBuildProvider
        ⟨some { index := ⟨[⟨"old", "old"⟩]⟩, similarity_top_k := 4,
                similarity_cutoff := 3/4,
                llm := none }⟩
        ⟨"k", [⟨"a.txt", [1]⟩], true, "q"⟩).2) :=
  failed_build_preserves_state demoLoader failingBuildProvider
    ⟨some { index := ⟨[⟨"old", "old"⟩]⟩, similarity_top_k := 4,
            similarity_cutoff := 3/4,
            llm := none }⟩
    ⟨"k", [⟨"a.txt", [1]⟩], true, "q"⟩ [⟨"a.txt", "a.txt"⟩]
    (by decide) rfl (by decide) rfl rfl

theorem renderQuery_events {p : Provider} {s : SessionState} {q : String}
    {e : Event} (h : e ∈ renderQuery p s q) :
    (∃ qs, e = Event.llmQuery qs) ∨ (∃ t, e = Event.showAnswer t) ∨
      (∃ sc t, e = Event.showSource sc t) ∨ (∃ m, e = Event.infoMsg m) ∨
      ∃ m, e = Event.errorMsg m := by
  unfold renderQuery at h
  split at h
  · exact absurd h (List.not_mem_nil e)
  · match hqe : s.query_engine with
    | none => rw [hqe] at h; exact absurd h (List.not_mem_nil e)
    | some qe =>
      rw [hqe] at h
      simp only [engineQuery] at h
      cases hg : p.generate q ((postprocess qe (retrieve p qe q)).map
          (fun n => n.text)) with
      | error er =>
        rw [hg] at h
        simp only [List.mem_append, List.mem_cons, List.mem_singleton,
          List.not_mem_nil, or_false] at h
        rcases h with h | h
        · exact Or.inl ⟨_, h⟩
        · exact Or.inr (Or.inr (Or.inr (Or.inr ⟨_, h⟩)))
      | ok text =>
        rw [hg] at h
        simp only [List.mem_append, List.mem_cons, List.mem_singleton,
          List.not_mem_nil, or_false] at h
        rcases h with (h | h) | h
        · exact Or.inl ⟨_, h⟩
        · exact Or.inr (Or.inl ⟨_, h⟩)
        · split at h
          · simp only [List.mem_singleton] at h
            exact Or.inr (Or.inr (Or.inr (Or.inl ⟨_, h⟩)))
          · rcases List.mem_map.mp h with ⟨nd, _, he⟩
            exact Or.inr (Or.inr (Or.inl ⟨nd.score, nd.text, he.symm⟩))

theorem processBlock_success (ld : Loader) (p : Provider) (s0 : SessionState)
    (fs : List UploadedFile) (docs : List DocumentRecord)
    (hload : ld.decode fs = Except.ok docs)
    (hne : docs ≠ [])
    (hbuild : p.embedFail docs = none)
    (heng : p.engineFail ⟨docs⟩ = none) :
    processBlock ld p s0 fs =
      (⟨some { index := ⟨docs⟩, similarity_top_k := 4, similarity_cutoff := 3/4,
               llm := none }⟩,
       Event.acquireTempDir :: (fs.map (fun f => Event.stageFile f.name) ++
         [Event.readerLoad, Event.releaseTempDir, Event.providerBuildIndex docs,
          Event.successMsg ("Processed " ++ toString docs.length ++
            " documents successfully!")]),
       false) := by
  have hde : docs.isEmpty = false := by
    cases docs with
    | nil => exact absurd rfl hne
    | cons a l => rfl
  simp [processBlock, load_documents_from_files, hload, create_index,
    hde, hbuild, create_query_engine, heng]

/-- C4: in a processing run, every selected file with an unrecognized
extension is rejected with a user-visible notice by the upload widget and
never reaches the document loader (only recognized files are ever staged),
while the recognized files of the same batch are still loaded, handed to
the index build, and indexed successfully. -/
theorem unsupported_rejected_supported_indexed (ld : Loader) (p : Provider)
    (s0 : SessionState) (inp : RunInputs) (docs : List DocumentRecord)
    (hkey : inp.api_key ≠ "")
    (hbtn : inp.process_button = true)
    (hfiles : (file_uploader inp.selected_files).1 ≠ [])
    (hload : ld.decode (file_uploader inp.selected_files).1 = Except.ok docs)
    (hne : docs ≠ [])
    (hbuild : p.embedFail docs = none)
    (heng : p.engineFail ⟨docs⟩ = none) :
    (∀ f ∈ inp.selected_files, allowedFile f = false →
      Event.widgetReject f.name ∈ (mainRun ld p s0 inp).2) ∧
    (∀ n, Event.stageFile n ∈ (mainRun ld p s0 inp).2 →
      ∃ f ∈ inp.selected_files, allowedFile f = true ∧ f.name = n) ∧
    Event.providerBuildIndex docs ∈ (mainRun ld p s0 inp).2 ∧
    (mainRun ld p s0 inp).1.query_engine =
      some { index := ⟨docs⟩, similarity_top_k := 4, similarity_cutoff := 3/4,
             llm := none } ∧
    Event.successMsg ("Processed " ++ toString docs.length ++
      " documents successfully!") ∈ (mainRun ld p s0 inp).2 := by
  have hcond := process_condition_true hfiles hbtn
  have hpb := processBlock_success ld p s0 (file_uploader inp.selected_files).1
    docs hload hne hbuild heng
  have hflag : (processBlock ld p s0 (file_uploader inp.selected_files).1).2.2
      = false := by rw [hpb]
  have hm := mainRun_processing_full ld p s0 inp hkey hcond hflag
  rw [hm, hpb]
  refine ⟨?_, ?_, ?_, rfl, ?_⟩
  · intro f hf hbad
    simp only [List.mem_append]
    refine Or.inl (Or.inl ?_)
    simp only [file_uploader, List.mem_map]
    exact ⟨f, List.mem_filter.mpr ⟨hf, by simp [hbad]⟩, rfl⟩
  · intro n hn
    simp only [List.mem_append] at hn
    rcases hn with (hn | hn) | hn
    · rcases file_uploader_events hn with ⟨m, hm2⟩
      exact Event.noConfusion hm2
    · simp only [List.mem_cons, List.mem_append, List.mem_map,
        List.mem_singleton, List.not_mem_nil, or_false] at hn
      rcases hn with hn | ⟨f, hf, he⟩ | hn | hn | hn | hn
      · exact Event.noConfusion hn
      · rcases List.mem_filter.mp hf with ⟨hsel, hok⟩
        exact ⟨f, hsel, hok, Event.stageFile.inj he⟩
      · exact Event.noConfusion hn
      · exact Event.noConfusion hn
      · exact Event.noConfusion hn
      · exact Event.noConfusion hn
    · rcases renderQuery_events hn with ⟨_, h1⟩ | ⟨_, h1⟩ | ⟨_, _, h1⟩ |
        ⟨_, h1⟩ | ⟨_, h1⟩ <;> exact Event.noConfusion h1
  · simp
  · simp

/-- Concrete inputs for the C4 witness: one supported and one unsupported
file in the same batch. -/
def c4Inputs : RunInputs := ⟨"k", [⟨"a.txt", [1]⟩, ⟨"b.exe", [2]⟩], true, "q"⟩

/-- The records the demo loader produces from the supported file. -/
def c4Docs : List DocumentRecord := [⟨"a.txt", "a.txt"⟩]

/-- Witness for C4: in a batch of `a.txt` and `b.exe`, the `.exe` file is
rejected by the widget and never staged, while `a.txt` is indexed and the
engine stored. -/
theorem unsupported_rejected_supported_indexed_witness :
    (∀ f ∈ c4Inputs.selected_files, allowedFile f = false →
      Event.widgetReject f.name ∈
        (mainRun demoLoader demoProvider ⟨none⟩ c4Inputs).2) ∧
    (∀ n, Event.stageFile n ∈
        (mainRun demoLoader demoProvider ⟨none⟩ c4Inputs).2 →
      ∃ f ∈ c4Inputs.selected_files, allowedFile f = true ∧ f.name = n) ∧
    Event.providerBuildIndex c4Docs ∈
      (mainRun demoLoader demoProvider ⟨none⟩ c4Inputs).2 ∧
    (mainRun demoLoader demoProvider ⟨none⟩ c4Inputs).1.query_engine =
      some { index := ⟨c4Docs⟩, similarity_top_k := 4, similarity_cutoff := 3/4,
             llm := none } ∧
    Event.successMsg ("Processed " ++ toString c4Docs.length ++
      " documents successfully!") ∈
      (mainRun demoLoader demoProvider ⟨none⟩ c4Inputs).2 :=
  unsupported_rejected_supported_indexed demoLoader demoProvider ⟨none⟩
    c4Inputs c4Docs (by decide) rfl (by decide) rfl (by decide) rfl rfl

/-- C1: when a processing run succeeds, the stored query engine handle is
replaced by one built over exactly the new batch's records, and every
source rendered by a query — in the same run after the rebuild and in any
later run that does not reprocess — comes from the new batch's documents,
never from a discarded batch. -/
theorem reprocess_replaces_engine (ld : Loader) (p : Provider)
    (s0 : SessionState) (inp : RunInputs) (docs : List DocumentRecord)
    (hkey : inp.api_key ≠ "")
    (hbtn : inp.process_button = true)
    (hfiles : (file_uploader inp.selected_files).1 ≠ [])
    (hload : ld.decode (file_uploader inp.selected_files).1 = Except.ok docs)
    (hne : docs ≠ [])
    (hbuild : p.embedFail docs = none)
    (heng : p.engineFail ⟨docs⟩ = none) :
    (mainRun ld p s0 inp).1.query_engine =
      some { index := ⟨docs⟩, similarity_top_k := 4, similarity_cutoff := 3/4,
             llm := none } ∧
    (∀ sc t, Event.showSource sc t ∈ (mainRun ld p s0 inp).2 →
      ∃ d ∈ docs, d.text = t) ∧
    ∀ (inp2 : RunInputs), inp2.process_button = false →
      ∀ sc t, Event.showSource sc t ∈
          (mainRun ld p (mainRun ld p s0 inp).1 inp2).2 →
        ∃ d ∈ docs, d.text = t := by
  have hcond := process_condition_true hfiles hbtn
  have hpb := processBlock_success ld p s0 (file_uploader inp.selected_files).1
    docs hload hne hbuild heng
  have hflag : (processBlock ld p s0 (file_uploader inp.selected_files).1).2.2
      = false := by rw [hpb]
  have hm := mainRun_processing_full ld p s0 inp hkey hcond hflag
  rw [hm, hpb]
  refine ⟨rfl, ?_, ?_⟩
  · intro sc t hmem
    simp only [List.mem_append] at hmem
    rcases hmem with (hmem | hmem) | hmem
    · rcases file_uploader_events hmem with ⟨n, hn⟩
      exact Event.noConfusion hn
    · simp only [List.mem_cons, List.mem_append, List.mem_map,
        List.mem_singleton, List.not_mem_nil, or_false] at hmem
      rcases hmem with h | ⟨f, _, h⟩ | h | h | h | h <;>
        exact Event.noConfusion h
    · rcases renderQuery_showSource hmem with ⟨qe2, hqe2, d, hd, hdt⟩
      have : qe2 = { index := ⟨docs⟩, similarity_top_k := 4,
                     similarity_cutoff := 3/4,
                     llm := none } := by
        exact (Option.some.inj hqe2).symm
      rw [this] at hd
      exact ⟨d, hd, hdt⟩
  · intro inp2 hb2 sc t hmem
    by_cases hk2 : inp2.api_key = ""
    · have hm2 : mainRun ld p
          ⟨some { index := ⟨docs⟩, similarity_top_k := 4,
                  similarity_cutoff := 3/4,
                  llm := none }⟩ inp2 =
          (⟨some { index := ⟨docs⟩, similarity_top_k := 4,
                   similarity_cutoff := 3/4,
                   llm := none }⟩,
           (file_uploader inp2.selected_files).2 ++
             [Event.infoMsg "Please enter your OpenAI API Key to proceed."]) := by
        simp [mainRun, hk2]
      rw [hm2] at hmem
      simp only [List.mem_append, List.mem_singleton] at hmem
      rcases hmem with hmem | hmem
      · rcases file_uploader_events hmem with ⟨n, hn⟩
        exact Event.noConfusion hn
      · exact Event.noConfusion hmem
    · have hcond2 : ((!(file_uploader inp2.selected_files).1.isEmpty) &&
          inp2.process_button) = false := by simp [hb2]
      have hm2 : mainRun ld p
          ⟨some { index := ⟨docs⟩, similarity_top_k := 4,
                  similarity_cutoff := 3/4,
                  llm := none }⟩ inp2 =
          (⟨some { index := ⟨docs⟩, similarity_top_k := 4,
                   similarity_cutoff := 3/4,
                   llm := none }⟩,
           (file_uploader inp2.selected_files).2 ++
             renderQuery p
               ⟨some { index := ⟨docs⟩, similarity_top_k := 4,
                       similarity_cutoff := 3/4,
                       llm := none }⟩
               inp2.query) := by
        simp [mainRun, hk2, hcond2]
      rw [hm2] at hmem
      simp only [List.mem_append] at hmem
      rcases hmem with hmem | hmem
      · rcases file_uploader_events hmem with ⟨n, hn⟩
        exact Event.noConfusion hn
      · rcases renderQuery_showSource hmem with ⟨qe2, hqe2, d, hd, hdt⟩
        have : qe2 = { index := ⟨docs⟩, similarity_top_k := 4,
                       similarity_cutoff := 3/4,
                       llm := none } :=
          (Option.some.inj hqe2).symm
        rw [this] at hd
        exact ⟨d, hd, hdt⟩

/-- The engine stored before the C1 witness run, built over a previous
batch. -/
def c1OldEngine : QueryEngineHandle :=
  { index := ⟨[⟨"old text", "old.txt"⟩]⟩, similarity_top_k := 4,
    similarity_cutoff := 3/4,
    llm := none }

/-- Inputs of the C1 witness run: a new batch is processed. -/
def c1Inputs : RunInputs := ⟨"k", [⟨"new.txt", [1]⟩], true, "q"⟩

/-- The records of the new batch in the C1 witness. -/
def c1Docs : List DocumentRecord := [⟨"new.txt", "new.txt"⟩]

/-- Witness for C1: re-processing a new batch over a session that already
holds an engine for an old batch replaces the stored engine, and queries
afterwards only ever show sources from the new batch. -/
theorem reprocess_replaces_engine_witness :
    (mainRun demoLoader demoProvider ⟨some c1OldEngine⟩ c1Inputs).1.query_engine =
      some { index := ⟨c1Docs⟩, similarity_top_k := 4, similarity_cutoff := 3/4,
             llm := none } ∧
    (∀ sc t, Event.showSource sc t ∈
        (mainRun demoLoader demoProvider ⟨some c1OldEngine⟩ c1Inputs).2 →
      ∃ d ∈ c1Docs, d.text = t) ∧
    ∀ (inp2 : RunInputs), inp2.process_button = false →
      ∀ sc t, Event.showSource sc t ∈
          (mainRun demoLoader demoProvider
            (mainRun demoLoader demoProvider ⟨some c1OldEngine⟩ c1Inputs).1
            inp2).2 →
        ∃ d ∈ c1Docs, d.text = t :=
  reprocess_replaces_engine demoLoader demoProvider ⟨some c1OldEngine⟩
    c1Inputs c1Docs (by decide) rfl (by decide) rfl (by decide) rfl rfl

/-- The events that touch the transient staging storage or hand work to
the indexing provider. -/
def isResourceEvent : Event → Bool
  | Event.acquireTempDir => true
  | Event.releaseTempDir => true
  | Event.providerBuildIndex _ => true
  | _ => false

/-- The sub-trace of storage and indexing events, in order. -/
def resourceEvents (tr : List Event) : List Event := tr.filter isResourceEvent

theorem resourceEvents_append (a b : List Event) :
    resourceEvents (a ++ b) = resourceEvents a ++ resourceEvents b := by
  simp [resourceEvents, List.filter_append]

theorem resourceEvents_stage (fs : List UploadedFile) :
    resourceEvents (fs.map (fun f => Event.stageFile f.name)) = [] := by
  simp only [resourceEvents]
  rw [List.filter_eq_nil_iff]
  intro e he
  rcases List.mem_map.mp he with ⟨f, _, hf⟩
  subst hf
  simp [isResourceEvent]

theorem resourceEvents_widget (sel : List UploadedFile) :
    resourceEvents (file_uploader sel).2 = [] := by
  simp only [resourceEvents]
  rw [List.filter_eq_nil_iff]
  intro e he
  rcases file_uploader_events he with ⟨n, hn⟩
  subst hn
  simp [isResourceEvent]

theorem resourceEvents_renderQuery (p : Provider) (s : SessionState)
    (q : String) : resourceEvents (renderQuery p s q) = [] := by
  simp only [resourceEvents]
  rw [List.filter_eq_nil_iff]
  intro e he
  rcases renderQuery_events he with ⟨_, h⟩ | ⟨_, h⟩ | ⟨_, _, h⟩ | ⟨_, h⟩ |
    ⟨_, h⟩ <;> subst h <;> simp [isResourceEvent]

theorem resourceEvents_load (ld : Loader) (fs : List UploadedFile) :
    resourceEvents (load_documents_from_files ld fs).2 =
      [Event.acquireTempDir, Event.releaseTempDir] := by
  have h1 := resourceEvents_stage fs
  simp only [resourceEvents] at h1 ⊢
  simp [load_documents_from_files, List.filter_append, h1, isResourceEvent]

theorem create_index_resourceEvents (p : Provider) (docs : List DocumentRecord) :
    resourceEvents (create_index p docs).2 = [] ∨
    resourceEvents (create_index p docs).2 = [Event.providerBuildIndex docs] := by
  cases docs with
  | nil =>
    left
    simp [create_index, resourceEvents, isResourceEvent]
  | cons a l =>
    cases hf : p.embedFail (a :: l) with
    | some er =>
      right
      simp [create_index, hf, resourceEvents, isResourceEvent]
    | none =>
      right
      simp [create_index, hf, resourceEvents, isResourceEvent]

theorem create_query_engine_resourceEvents (p : Provider)
    (idx : Option IndexHandle) :
    resourceEvents (create_query_engine p idx).2 = [] := by
  simp only [resourceEvents]
  rw [List.filter_eq_nil_iff]
  intro e he
  rcases create_query_engine_trace_events he with ⟨m, hm⟩
  subst hm
  simp [isResourceEvent]

theorem processBlock_resourceEvents (ld : Loader) (p : Provider)
    (s : SessionState) (fs : List UploadedFile) :
    resourceEvents (processBlock ld p s fs).2.1 =
      [Event.acquireTempDir, Event.releaseTempDir] ∨
    ∃ d, resourceEvents (processBlock ld p s fs).2.1 =
      [Event.acquireTempDir, Event.releaseTempDir,
       Event.providerBuildIndex d] := by
  have hld := resourceEvents_load ld fs
  cases hdec : ld.decode fs with
  | error er =>
    left
    have : (processBlock ld p s fs).2.1 =
        (load_documents_from_files ld fs).2 ++
          [Event.errorMsg ("Error processing documents: " ++ er)] := by
      simp [processBlock, load_documents_from_files, hdec]
    rw [this, resourceEvents_append, hld]
    simp [resourceEvents, isResourceEvent]
  | ok documents =>
    cases hci : create_index p documents with
    | mk oi itr =>
      have hitr : resourceEvents itr = [] ∨
          resourceEvents itr = [Event.providerBuildIndex documents] := by
        have := create_index_resourceEvents p documents
        rw [hci] at this
        exact this
      cases oi with
      | none =>
        have hpe : (processBlock ld p s fs).2.1 =
            (load_documents_from_files ld fs).2 ++ itr ++
              [Event.errorMsg "Failed to create index."] := by
          simp [processBlock, load_documents_from_files, hdec, hci]
        rw [hpe, resourceEvents_append, resourceEvents_append, hld]
        have hr : resourceEvents
            [Event.errorMsg "Failed to create index."] = [] := by
          simp [resourceEvents, isResourceEvent]
        rw [hr]
        rcases hitr with h | h
        · left; simp [h]
        · right; exact ⟨documents, by simp [h]⟩
      | some idx =>
        cases hcq : create_query_engine p (some idx) with
        | mk oq qtr =>
          have hqtr : resourceEvents qtr = [] := by
            have := create_query_engine_resourceEvents p (some idx)
            rw [hcq] at this
            exact this
          cases oq with
          | none =>
            have hpe : (processBlock ld p s fs).2.1 =
                (load_documents_from_files ld fs).2 ++ itr ++ qtr ++
                  [Event.errorMsg "Failed to create query engine."] := by
              simp [processBlock, load_documents_from_files, hdec, hci, hcq]
            rw [hpe, resourceEvents_append, resourceEvents_append,
              resourceEvents_append, hld, hqtr]
            have hr : resourceEvents
                [Event.errorMsg "Failed to create query engine."] = [] := by
              simp [resourceEvents, isResourceEvent]
            rw [hr]
            rcases hitr with h | h
            · left; simp [h]
            · right; exact ⟨documents, by simp [h]⟩
          | some qe =>
            have hpe : (processBlock ld p s fs).2.1 =
                (load_documents_from_files ld fs).2 ++ itr ++ qtr ++
                  [Event.successMsg ("Processed " ++
                    toString documents.length ++
                    " documents successfully!")] := by
              simp [processBlock, load_documents_from_files, hdec, hci, hcq]
            rw [hpe, resourceEvents_append, resourceEvents_append,
              resourceEvents_append, hld, hqtr]
            have hr : resourceEvents
                [Event.successMsg ("Processed " ++
                  toString documents.length ++
                  " documents successfully!")] = [] := by
              simp [resourceEvents, isResourceEvent]
            rw [hr]
            rcases hitr with h | h
            · left; simp [h]
            · right; exact ⟨documents, by simp [h]⟩

/-- C7: the transient staging directory is acquired and released exactly
once per load, on every exit path of the load operation (the trace shape
is the same whether decoding succeeds or fails, and release is the last
thing load does), and in a full interaction run every hand-off to the
indexing provider happens only after the release: the run's storage and
indexing sub-trace is always acquire, release, then at most one build. -/
theorem tempdir_scoped_release (ld : Loader) (fs : List UploadedFile)
    (p : Provider) (s0 : SessionState) (inp : RunInputs) :
    resourceEvents (load_documents_from_files ld fs).2 =
      [Event.acquireTempDir, Event.releaseTempDir] ∧
    (load_documents_from_files ld fs).2.getLast? =
      some Event.releaseTempDir ∧
    (resourceEvents (mainRun ld p s0 inp).2 = [] ∨
     resourceEvents (mainRun ld p s0 inp).2 =
       [Event.acquireTempDir, Event.releaseTempDir] ∨
     ∃ d, resourceEvents (mainRun ld p s0 inp).2 =
       [Event.acquireTempDir, Event.releaseTempDir,
        Event.providerBuildIndex d]) := by
  refine ⟨resourceEvents_load ld fs, ?_, ?_⟩
  · have hshape : (load_documents_from_files ld fs).2 =
        (Event.acquireTempDir :: fs.map (fun f => Event.stageFile f.name) ++
          [Event.readerLoad]) ++ [Event.releaseTempDir] := by
      simp [load_documents_from_files]
    rw [hshape, List.getLast?_concat]
  · by_cases hk : inp.api_key = ""
    · left
      have hm : mainRun ld p s0 inp =
          (s0, (file_uploader inp.selected_files).2 ++
            [Event.infoMsg "Please enter your OpenAI API Key to proceed."]) := by
        simp [mainRun, hk]
      rw [hm]
      simp only [resourceEvents_append, resourceEvents_widget]
      simp [resourceEvents, isResourceEvent]
    · cases hcond : ((!(file_uploader inp.selected_files).1.isEmpty) &&
          inp.process_button) with
      | false =>
        left
        have hm : mainRun ld p s0 inp =
            (s0, (file_uploader inp.selected_files).2 ++
              renderQuery p s0 inp.query) := by
          simp [mainRun, hk, hcond]
        rw [hm]
        simp only [resourceEvents_append, resourceEvents_widget,
          resourceEvents_renderQuery, List.append_nil]
      | true =>
        have hres := processBlock_resourceEvents ld p s0
          (file_uploader inp.selected_files).1
        cases hflag : (processBlock ld p s0
            (file_uploader inp.selected_files).1).2.2 with
        | true =>
          have hm := mainRun_processing_early ld p s0 inp hk hcond hflag
          rw [hm]
          simp only [resourceEvents_append, resourceEvents_widget,
            List.nil_append]
          rcases hres with h | ⟨d, h⟩
          · exact Or.inr (Or.inl h)
          · exact Or.inr (Or.inr ⟨d, h⟩)
        | false =>
          have hm := mainRun_processing_full ld p s0 inp hk hcond hflag
          rw [hm]
          simp only [resourceEvents_append, resourceEvents_widget,
            resourceEvents_renderQuery, List.nil_append, List.append_nil]
          rcases hres with h | ⟨d, h⟩
          · exact Or.inr (Or.inl h)
          · exact Or.inr (Or.inr ⟨d, h⟩)
